import Mathlib

/-!
Verification development for the `thacher-obs/observatory` repository.

The repository consists of three Python scripts:
  * `seeing.py`    - parsing, vetting and summarising FWHM seeing-monitor logs;
  * `makegaussian.py` - a Gaussian-weighting sky-brightness script;
  * `thacher_obs.py`  - a small ephemeris plotting script (plot-only, not
    needed by any claim below).

Embedding conventions:
  * numpy float arrays are modelled as Lean lists; the exact parts of the
    pipeline (string parsing, rounding, sentinel comparisons against the
    decimal constants `0.0`, `0.08`, `10`, `50`) are modelled over `ℚ`, so
    that every definition is computable and every concrete evaluation can be
    settled by `decide`.  Binary floating-point representation effects are
    abstracted away by this exact model.
  * the transcendental parts (`np.std`, `scipy.stats.gaussian_kde`,
    `scipy.stats.sigmaclip`, the Gaussian kernel and logarithms of
    `makegaussian.py`) are modelled over `ℝ`.
  * Python exceptions are modelled with `Except String`; a Python `None`
    result is modelled with `Option`.
-/

/-! ## Python `float()` conversion, modelled over `ℚ`

`numpy`'s `astype('float')` applies Python's `float()` to every string.
`float()` strips surrounding whitespace and accepts an optional sign, a
decimal mantissa (`digits`, `digits.`, `.digits` or `digits.digits`) and an
optional exponent part.  (The special literals `inf`/`nan` do not occur in
seeing-log data and are outside this model.)  An empty or otherwise malformed
string raises `ValueError`, modelled as `none`. -/

/-- Digit-string to number; `none` on an empty string or any non-digit. -/
def parseDigits (cs : List Char) : Option ℕ :=
  if cs.isEmpty then none
  else if cs.all Char.isDigit then
    some (cs.foldl (fun n c => 10 * n + (c.toNat - 48)) 0)
  else none

/-- Split a character list at the first character satisfying `p`
(the splitting character is dropped); `none` right component if absent. -/
def splitAtChar (p : Char → Bool) (cs : List Char) : List Char × Option (List Char) :=
  let a := cs.takeWhile (fun c => !(p c))
  match cs.dropWhile (fun c => !(p c)) with
  | [] => (a, none)
  | _ :: rest => (a, some rest)

/-- Mantissa of a Python float literal: `digits`, `digits.`, `.digits` or
`digits.digits`; a bare `.` or an empty mantissa is rejected.  A mantissa
`n.f` with `k` fractional digits is represented by the scaled integer
`n * 10 ^ k + f` together with `k`, so its value is the scaled integer over
`10 ^ k`. -/
def parseMantissaRep (cs : List Char) : Option (ℕ × ℕ) :=
  match splitAtChar (fun c => c == '.') cs with
  | (ip, none) => (parseDigits ip).map (fun n => (n, 0))
  | (ip, some fp) =>
    if ip.isEmpty && fp.isEmpty then none
    else
      match (if ip.isEmpty then some 0 else parseDigits ip),
            (if fp.isEmpty then some 0 else parseDigits fp) with
      | some n, some m => some ((n * 10 ^ fp.length + m, fp.length))
      | _, _ => none

/-- Strip leading and trailing whitespace, as Python `float()` does. -/
def stripSpace (cs : List Char) : List Char :=
  ((cs.dropWhile Char.isWhitespace).reverse.dropWhile Char.isWhitespace).reverse

/-- Integer representation of a parsed Python float literal: signed scaled
mantissa, number of fractional digits, signed decimal exponent. -/
def parseFloatRep (s : String) : Option (ℤ × ℕ × ℤ) :=
  match stripSpace s.toList with
  | [] => none
  | c0 :: cs0 =>
    let (sign, cs) : ℤ × List Char :=
      if c0 == '+' then (1, cs0)
      else if c0 == '-' then (-1, cs0)
      else (1, c0 :: cs0)
    match splitAtChar (fun c => c == 'e' || c == 'E') cs with
    | (mant, exPart) =>
      let eOpt : Option ℤ :=
        match exPart with
        | none => some 0
        | some ex =>
          let (esign, ed) : ℤ × List Char :=
            match ex with
            | '+' :: r => (1, r)
            | '-' :: r => (-1, r)
            | r => (1, r)
          (parseDigits ed).map (fun e => esign * (e : ℤ))
      match parseMantissaRep mant, eOpt with
      | some (z, k), some e => some (sign * (z : ℤ), k, e)
      | _, _ => none

/-- Value of a parse representation: `mantissa / 10 ^ fracDigits * 10 ^ exp`. -/
def ratOfRep (r : ℤ × ℕ × ℤ) : ℚ :=
  (r.1 : ℚ) / 10 ^ r.2.1 * (10 : ℚ) ^ r.2.2

/-- Python `float(s)`, modelled exactly over `ℚ`; `none` models `ValueError`. -/
def parseFloat (s : String) : Option ℚ :=
  (parseFloatRep s).map ratOfRep

/-- `np.array(l).astype('float')`: converts every string, raising
(`none`) if any single conversion fails; an empty array converts to `[]`. -/
def parseAll : List String → Option (List ℚ)
  | [] => some []
  | s :: r =>
    match parseFloat s, parseAll r with
    | some q, some qs => some (q :: qs)
    | _, _ => none

/-! ## Python 2 `round(x, 2)` -/

/-- Python 2 `round` to an integer: round half away from zero. -/
def pyRoundInt (q : ℚ) : ℤ :=
  if q < 0 then -Int.floor (-q + 1 / 2) else Int.floor (q + 1 / 2)

/-- Python 2 `round(x, 2)`: round half away from zero at two decimals
(exact decimal model of `seeing.py` line 306, `round(r,2)`). -/
def pyRound2 (q : ℚ) : ℚ :=
  (pyRoundInt (q * 100) : ℚ) / 100

/-! ## `seeing.py` : `vet_FWHM_series` (lines 287-334)

The source builds `new` (the data series rounded to 2 decimals, via
`np.append(new, round(r,2))`) and `newt` (the timestamps), returns
`(None, None)` after a printed warning if `length(newt) != length(new)`
(the `length` helper comes from the repository's `length` module, which is
not part of the sources here; it is modelled from the spec sentence
"mismatched vector lengths trigger a printed warning and a null result" as
the number of elements of a vector), and then applies three filter passes
with `np.where`, each pass indexing both `new` and `newt` with the same
index array `keep1`/`keep2`/`keep3`.  Filtering both arrays with one index
array is expressed here by filtering the list of `(value, timestamp)` pairs.

Note `inds, = np.where(new == '')` on line 315 compares a *float* array with
a string, which in numpy yields the scalar `False`; `inds` is therefore
always empty and the `new[inds] = '0.0'` branch is dead code, so it does not
appear in the model.  The printed warning is I/O and is not modelled; the
`(None, None)` result is modelled as `none`. -/

/-- `vet_FWHM_series(time, raw)` from `seeing.py`.  The result pair is
`(newt, FWHM)` in the order returned on line 334. -/
def vet_FWHM_series (time raw : List ℚ) : Option (List ℚ × List ℚ) :=
  let new := raw.map pyRound2
  let newt := time
  if newt.length ≠ new.length then none
  else
    let pairs := new.zip newt
    let keep1 := pairs.filter (fun p => decide (p.1 ≠ 0))
    let keep2 := keep1.filter (fun p => decide (p.1 ≠ 8 / 100))
    let keep3 := keep2.filter (fun p => decide (p.1 < 10))
    some (keep3.map Prod.snd, keep3.map Prod.fst)

/-! ## `seeing.py` : `FWHM_all` (lines 187-209)

`new` is the flattening of the raw rows (`np.append` flattens the appended
row).  `inds, = np.where(new == '')` collects the indices of empty strings,
and `if inds:` applies Python truthiness to that numpy index array: an empty
array is falsy, a one-element array has the truth value of its single
element, and an array of two or more elements raises
`ValueError: the truth value of an array ... is ambiguous`. -/

instance {ε α : Type} [DecidableEq ε] [DecidableEq α] : DecidableEq (Except ε α) := fun a b =>
  match a, b with
  | Except.error e, Except.error f =>
    if h : e = f then isTrue (by rw [h]) else isFalse (fun hh => h (by injection hh))
  | Except.ok x, Except.ok y =>
    if h : x = y then isTrue (by rw [h]) else isFalse (fun hh => h (by injection hh))
  | Except.error _, Except.ok _ => isFalse (fun hh => Except.noConfusion hh)
  | Except.ok _, Except.error _ => isFalse (fun hh => Except.noConfusion hh)

/-- Python truthiness of a numpy index array (`if inds:`). -/
def npTruthy (inds : List ℕ) : Except String Bool :=
  match inds with
  | [] => Except.ok false
  | [i] => Except.ok (decide (i ≠ 0))
  | _ => Except.error "ValueError: ambiguous truth value"

/-- Indices of the empty strings in `l` (`np.where(new == '')`). -/
def emptyIdx (l : List String) : List ℕ :=
  (List.range l.length).filter (fun i => decide (l.getD i "" = ""))

/-- `FWHM_all(data)` from `seeing.py`, as a function of `data["FWHMraw"]`.
`new[inds] = '0.0'` assigns `'0.0'` at exactly the positions holding `''`,
expressed here by mapping over the list; it runs only when `if inds:` is
truthy.  The final `np.where((FWHM != 0.0) & (FWHM != 0.08))` keep-filter is
the last step. -/
def FWHM_all (raw : List (List String)) : Except String (List ℚ) :=
  let new := raw.flatten
  match npTruthy (emptyIdx new) with
  | Except.error e => Except.error e
  | Except.ok b =>
    let new2 := if b then new.map (fun s => if s = "" then "0.0" else s) else new
    match parseAll new2 with
    | none => Except.error "ValueError: invalid float literal"
    | some FWHM => Except.ok (FWHM.filter (fun x => decide (x ≠ 0 ∧ x ≠ 8 / 100)))

/-! ## `seeing.py` : `FWHM_ave` (lines 212-250), `clip=False` paths

Per row the code removes the *first* empty string if one is present
(`raw[i].remove('')`), converts with `astype('float')` falling back to
`vals = [0]` on `ValueError`, and stores `np.mean(vals)` and `np.std(vals)`.
`np.mean([])` is `nan`, modelled as `none`; `FWHM = np.nan_to_num(FWHM)`
replaces those `nan` entries by `0`, while the `sigma` array is returned
unsanitised.  The claims exercise only the default `clip=False` branch, so
the `sigmaclip` branch of lines 238-241 is not part of this model. -/

/-- `if '' in raw[i]: raw[i].remove('')` - drop the first `''` if present. -/
def removeFirstEmpty (row : List String) : List String :=
  if "" ∈ row then row.erase "" else row

/-- The per-row values `vals`: `astype('float')` with the
`except ValueError: vals = [0]` fallback. -/
def rowVals (row : List String) : List ℚ :=
  match parseAll (removeFirstEmpty row) with
  | some vs => vs
  | none => [0]

/-- `np.mean` over `ℚ`, with `none` modelling the `nan` mean of an empty
array. -/
def npMeanOpt (l : List ℚ) : Option ℚ :=
  if l.isEmpty then none else some (l.sum / l.length)

/-- `FWHM_ave(data)` (default `sigmas=False`, `clip=False`): the per-row
means with `np.nan_to_num` applied. -/
def FWHM_ave (raw : List (List String)) : List ℚ :=
  raw.map (fun row => (npMeanOpt (rowVals row)).getD 0)

/-- `np.std` of a row of `ℚ` values, over `ℝ`; `none` models the `nan`
standard deviation of an empty array. -/
noncomputable def npStdOpt (l : List ℚ) : Option ℝ :=
  if l.isEmpty then none
  else
    some (Real.sqrt (((l.map (fun x => ((x : ℝ) - ((l.sum / l.length : ℚ) : ℝ)) ^ 2)).sum) /
      (l.length : ℝ)))

/-- `FWHM_ave(data, sigmas=True)` (default `clip=False`): the pair
`[FWHM, sigma]` of line 248; only `FWHM` passed through `np.nan_to_num`. -/
noncomputable def FWHM_ave_sigmas (raw : List (List String)) :
    List ℚ × List (Option ℝ) :=
  (FWHM_ave raw, raw.map (fun row => npStdOpt (rowVals row)))

/-! ## `seeing.py` : `FWHM_stats` (lines 253-282), over `ℝ`

`FWHM_stats(data, all=True)` applies the statistics below to the vetted
sample `FWHM_all(data)`; the model takes the selected sample directly as the
function argument and embeds lines 268-282.  The scipy pieces:

  * `np.mean`, `np.std` (population standard deviation, `ddof=0`);
  * `np.median` (sort, middle element or mean of the two middle elements);
  * `scipy.stats.sigmaclip(fwhm, low=3, high=3)`: repeatedly keep the values
    strictly between `mean - 3*std` and `mean + 3*std` until a pass removes
    nothing.  Each removing pass strictly shrinks the array, so the length of
    the input bounds the number of passes and serves as recursion fuel;
  * `scipy.stats.kde.gaussian_kde` with the default Scott bandwidth factor
    `n ** (-1/5)`: the kernel covariance is `factor^2` times the sample
    variance of the data (`ddof=1`, as `np.cov` defaults), and the density at
    `x` is `sum_i exp(-(x - x_i)^2 / (2*cov)) / (n * sqrt(2*pi*cov))`;
  * `np.linspace(0, 30, 1000)` and `np.argmax` (first index of the maximum).
-/

/-- `np.mean` over `ℝ`. -/
noncomputable def npMean (l : List ℝ) : ℝ := l.sum / l.length

/-- `np.std` over `ℝ` (population standard deviation). -/
noncomputable def npStd (l : List ℝ) : ℝ :=
  Real.sqrt ((l.map (fun x => (x - npMean l) ^ 2)).sum / l.length)

open Classical in
/-- Insert into a sorted list (ascending). -/
noncomputable def insertSorted (x : ℝ) : List ℝ → List ℝ
  | [] => [x]
  | y :: ys => if x ≤ y then x :: y :: ys else y :: insertSorted x ys

/-- Sort a list of reals ascending (the sorting inside `np.median`). -/
noncomputable def sortReals (l : List ℝ) : List ℝ := l.foldr insertSorted []

/-- `np.median`: middle of the sorted data, or the mean of the two middle
entries for even length. -/
noncomputable def npMedian (l : List ℝ) : ℝ :=
  let s := sortReals l
  let n := s.length
  if n % 2 = 1 then s.getD (n / 2) 0
  else (s.getD (n / 2 - 1) 0 + s.getD (n / 2) 0) / 2

open Classical in
/-- One scipy `sigmaclip` loop, on `fuel`: keep the values strictly inside
`mean ± std*low/high`; stop as soon as a pass removes nothing.  `fuel` is
initialised with the array length, which bounds the number of removing
passes. -/
noncomputable def sigmaclipGo (low high : ℝ) : ℕ → List ℝ → List ℝ
  | 0, c => c
  | fuel + 1, c =>
    let m := npMean c
    let s := npStd c
    let c2 := c.filter (fun x => decide (m - s * low < x ∧ x < m + s * high))
    if c2.length = c.length then c2 else sigmaclipGo low high fuel c2

/-- `scipy.stats.sigmaclip(c, low, high)` (the clipped array). -/
noncomputable def sigmaclip (low high : ℝ) (c : List ℝ) : List ℝ :=
  sigmaclipGo low high c.length c

/-- Scott bandwidth factor `n ** (-1/5)` of `gaussian_kde`. -/
noncomputable def scottFactor (n : ℕ) : ℝ := Real.rpow (n : ℝ) (-(1 : ℝ) / 5)

/-- Sample variance with `ddof=1` (the `np.cov` default used by
`gaussian_kde`). -/
noncomputable def sampleVar (l : List ℝ) : ℝ :=
  ((l.map (fun x => (x - npMean l) ^ 2)).sum) / ((l.length : ℝ) - 1)

/-- Kernel covariance of `gaussian_kde`: Scott factor squared times the
sample variance. -/
noncomputable def kdeCov (l : List ℝ) : ℝ := scottFactor l.length ^ 2 * sampleVar l

/-- `gaussian_kde(l)` evaluated at `x`. -/
noncomputable def gaussian_kde (l : List ℝ) (x : ℝ) : ℝ :=
  ((l.map (fun xi => Real.exp (-((x - xi) ^ 2) / (2 * kdeCov l)))).sum) /
    (Real.sqrt (2 * Real.pi * kdeCov l) * l.length)

/-- `vals = np.linspace(0, 30, 1000)`: the 1000-point uniform grid on
`[0, 30]`, point `i` at `30 * i / 999`. -/
noncomputable def kdeGrid : List ℝ :=
  (List.range 1000).map (fun i : ℕ => 30 * (i : ℝ) / 999)

open Classical in
/-- `np.argmax`: index of the first maximal entry (strict improvement keeps
the earlier index on ties). -/
noncomputable def argmaxIdx (l : List ℝ) : ℕ :=
  (List.range l.length).foldl (fun b j => if l.getD b 0 < l.getD j 0 then j else b) 0

/-- `FWHM_stats` applied to the selected FWHM sample (lines 268-282 of
`seeing.py`): `[mean, med, mode, std, meanclip]`. -/
noncomputable def FWHM_stats (fwhm : List ℝ) : List ℝ :=
  let med := npMedian fwhm
  let mean := npMean fwhm
  let meanclip := npMean (sigmaclip 3 3 fwhm)
  let fpdf := kdeGrid.map (gaussian_kde fwhm)
  let mode := kdeGrid.getD (argmaxIdx fpdf) 0
  let std := npStd fwhm
  [mean, med, mode, std, meanclip]

/-! ## `makegaussian.py` : `makeGaussian` (lines 14-68)

The script scales `fwhm` by `3600/arcppx`, sets
`sig = fwhm/(2*sqrt(2*log(2)))`, builds the 2D Gaussian kernel `Z` of
line 43 over the image grid, computes the weighted mean flux
`wmean = sum(N*Z)/sum(Z)` (line 47) and converts the image to magnitudes on
line 49 with `img_mag = m0 - 2.5*np.log(N/wmean)`.  `np.log` is the natural
logarithm.  The script's own closing comment (lines 69-75) documents the
intended conversion as `img_magnitude = m0 - 2.5*log10(img/wmean)`. -/

/-- Kernel width: `fwhm *= 3600/arcppx; sig = fwhm/(2*np.sqrt(2*np.log(2)))`. -/
noncomputable def sigOfFwhm (fwhm arcppx : ℝ) : ℝ :=
  (fwhm * (3600 / arcppx)) / (2 * Real.sqrt (2 * Real.log 2))

/-- The 2D Gaussian kernel of line 43 at grid point `(x, y)` about
`(x0, y0)`. -/
noncomputable def gaussKernel (sig x0 y0 x y : ℝ) : ℝ :=
  (1 / (Real.sqrt (2 * Real.pi) * sig)) *
    Real.exp (-4 * Real.log 2 * ((x - x0) ^ 2 + (y - y0) ^ 2) / (2 * sig ^ 2))

/-- Weighted mean flux of line 47: `wmean = np.sum(N*Z)/np.sum(Z)`, over the
image pixels listed with their kernel weights. -/
noncomputable def wmean (N Z : List ℝ) : ℝ :=
  (List.zipWith (fun a b => a * b) N Z).sum / Z.sum

/-- Per-pixel magnitude conversion of line 49:
`img_mag = m0 - 2.5*np.log(N/wmean)` with `np.log` the natural logarithm. -/
noncomputable def img_mag (m0 wm n : ℝ) : ℝ := m0 - 2.5 * Real.log (n / wm)

/-- Per-pixel magnitude conversion as the spec and the script's own closing
comment state it: `m0 - 2.5*log10(N/wmean)`. -/
noncomputable def img_mag_spec (m0 wm n : ℝ) : ℝ := m0 - 2.5 * Real.logb 10 (n / wm)

/-! ## Helper lemmas about the vetting pipeline -/

lemma vet_isSome (time raw : List ℚ) (h : time.length = raw.length) :
    ∃ out, vet_FWHM_series time raw = some out := by
  simp only [vet_FWHM_series]
  rw [if_neg (by simp [h])]
  exact ⟨_, rfl⟩

lemma vet_some_eq (time raw : List ℚ) (out : List ℚ × List ℚ)
    (hout : vet_FWHM_series time raw = some out) :
    ∃ kept : List (ℚ × ℚ),
      List.Sublist kept ((raw.map pyRound2).zip time) ∧
      out = (kept.map Prod.snd, kept.map Prod.fst) ∧
      ∀ p ∈ kept, p.1 ≠ 0 ∧ p.1 ≠ 8 / 100 ∧ p.1 < 10 := by
  simp only [vet_FWHM_series] at hout
  by_cases h : time.length ≠ (raw.map pyRound2).length
  · rw [if_pos h] at hout
    exact absurd hout (by simp)
  · rw [if_neg h] at hout
    refine ⟨((((raw.map pyRound2).zip time).filter (fun p => decide (p.1 ≠ 0))).filter
      (fun p => decide (p.1 ≠ 8 / 100))).filter (fun p => decide (p.1 < 10)),
      ?_, ?_, ?_⟩
    · exact (List.filter_sublist _).trans ((List.filter_sublist _).trans
        (List.filter_sublist _))
    · exact (Option.some.inj hout).symm
    · intro p hp
      simp only [List.mem_filter, decide_eq_true_eq] at hp
      exact ⟨hp.1.1.2, hp.1.2, hp.2⟩

lemma getD_map_lt {α β : Type _} (f : α → β) (l : List α) (i : ℕ) (hi : i < l.length)
    (d : β) (d0 : α) : (l.map f).getD i d = f (l.getD i d0) := by
  induction l generalizing i with
  | nil => simp at hi
  | cons a t ih =>
    cases i with
    | zero => rfl
    | succ n =>
      simp only [List.map_cons, List.getD_cons_succ]
      exact ih n (by simpa using hi)

/-! ## Claims C1-C4, C8-C10 -/

/-- C1: for every pair of equal-length time and raw FWHM vectors,
`vet_FWHM_series` succeeds and its returned FWHM array (the second
component) contains no entry equal to `0.0`, no entry equal to `0.08`,
and every entry strictly below the threshold `10` (so entries at or above
the threshold are all removed). -/
theorem vet_FWHM_series_output_vetted (time raw : List ℚ)
    (h : time.length = raw.length) :
    ∃ out, vet_FWHM_series time raw = some out ∧
      ∀ x ∈ out.2, x ≠ 0 ∧ x ≠ 8 / 100 ∧ x < 10 := by
  obtain ⟨out, hout⟩ := vet_isSome time raw h
  refine ⟨out, hout, ?_⟩
  obtain ⟨kept, -, heq, hprop⟩ := vet_some_eq time raw out hout
  intro x hx
  rw [heq] at hx
  simp only [List.mem_map] at hx
  obtain ⟨p, hp, rfl⟩ := hx
  exact hprop p hp

/-- Witness for C1 at a concrete input. -/
theorem vet_FWHM_series_output_vetted_app :
    ([(1 : ℚ), 2, 3].length = [(0 : ℚ), 8 / 100, 5 / 2].length) ∧
      (∃ out, vet_FWHM_series [1, 2, 3] [0, 8 / 100, 5 / 2] = some out ∧
        ∀ x ∈ out.2, x ≠ 0 ∧ x ≠ 8 / 100 ∧ x < 10) :=
  ⟨rfl, vet_FWHM_series_output_vetted [1, 2, 3] [0, 8 / 100, 5 / 2] rfl⟩

/-- C4: `vet_FWHM_series` returns the null result `(None, None)` (modelled
`none`; the printed warning is I/O and not modelled) exactly when the two
input vectors have different lengths. -/
theorem vet_FWHM_series_null_iff (time raw : List ℚ) :
    vet_FWHM_series time raw = none ↔ time.length ≠ raw.length := by
  simp only [vet_FWHM_series]
  by_cases h : time.length = raw.length
  · rw [if_neg (by simp [h])]
    simp [h]
  · rw [if_pos (by simp [h])]
    simp [h]

/-- Counterexample for C8 as stated: the returned FWHM array holds the
*rounded* values, so it need not be a subsequence of the raw input. -/
theorem vet_FWHM_series_value_not_in_raw :
    vet_FWHM_series [1] [1234 / 1000] = some ([1], [123 / 100]) ∧
      ¬ List.Sublist [(123 : ℚ) / 100] [(1234 : ℚ) / 1000] := by
  constructor
  · norm_num [vet_FWHM_series, pyRound2, pyRoundInt]
  · intro hs
    have hm : (123 : ℚ) / 100 ∈ [(1234 : ℚ) / 1000] := hs.subset (by simp)
    simp only [List.mem_singleton] at hm
    norm_num at hm

/-- C8 (amended): on equal-length inputs `vet_FWHM_series` succeeds and
returns two arrays of equal length whose entries correspond pairwise: the
zipped output is an order-preserving subsequence of the input pairing of
*rounded* values with their timestamps; the timestamp array is a
subsequence of the input timestamps, and the FWHM array is a subsequence of
the pointwise-rounded raw input. -/
theorem vet_FWHM_series_pairing (time raw : List ℚ)
    (h : time.length = raw.length) :
    ∃ out, vet_FWHM_series time raw = some out ∧
      out.1.length = out.2.length ∧
      List.Sublist (out.2.zip out.1) ((raw.map pyRound2).zip time) ∧
      List.Sublist out.1 time ∧
      List.Sublist out.2 (raw.map pyRound2) := by
  obtain ⟨out, hout⟩ := vet_isSome time raw h
  obtain ⟨kept, hsub, heq, -⟩ := vet_some_eq time raw out hout
  have hlt : time.length ≤ (raw.map pyRound2).length := by simp [h]
  have hlt' : (raw.map pyRound2).length ≤ time.length := by simp [h]
  refine ⟨out, hout, ?_, ?_, ?_, ?_⟩ <;> rw [heq]
  · simp
  · rw [List.zip_map']
    simpa using hsub
  · have h1 : List.Sublist (kept.map Prod.snd)
        (((raw.map pyRound2).zip time).map Prod.snd) := hsub.map Prod.snd
    rwa [List.map_snd_zip _ _ hlt] at h1
  · have h1 : List.Sublist (kept.map Prod.fst)
        (((raw.map pyRound2).zip time).map Prod.fst) := hsub.map Prod.fst
    rwa [List.map_fst_zip _ _ hlt'] at h1

/-- Witness for the amended C8 at a concrete input. -/
theorem vet_FWHM_series_pairing_app :
    ([(1 : ℚ)].length = [(5 : ℚ) / 2].length) ∧
      (∃ out, vet_FWHM_series [1] [5 / 2] = some out ∧
        out.1.length = out.2.length ∧
        List.Sublist (out.2.zip out.1) (([(5 : ℚ) / 2].map pyRound2).zip [1]) ∧
        List.Sublist out.1 [1] ∧
        List.Sublist out.2 ([(5 : ℚ) / 2].map pyRound2)) :=
  ⟨rfl, vet_FWHM_series_pairing [1] [5 / 2] rfl⟩

/-- C10: `vet_FWHM_series` rounds every raw value to 2 decimals before any
filtering, so every returned FWHM value is `round(x, 2)` of some input
value `x`; the sentinel tests act on the rounded values, e.g. the inputs
`0.0849` (rounded to the `0.08` artifact) and `9.996` (rounded to `10`) are
both removed. -/
theorem vet_FWHM_series_rounds_first (time raw : List ℚ)
    (h : time.length = raw.length) :
    (∃ out, vet_FWHM_series time raw = some out ∧
        ∀ y ∈ out.2, ∃ x ∈ raw, y = pyRound2 x) ∧
      vet_FWHM_series [1, 2] [849 / 10000, 9996 / 1000] = some ([], []) ∧
      pyRound2 (849 / 10000) = 8 / 100 ∧ pyRound2 (9996 / 1000) = 10 := by
  refine ⟨?_, ?_, ?_, ?_⟩
  · obtain ⟨out, hout⟩ := vet_isSome time raw h
    obtain ⟨kept, hsub, heq, -⟩ := vet_some_eq time raw out hout
    refine ⟨out, hout, ?_⟩
    intro y hy
    rw [heq] at hy
    simp only [List.mem_map] at hy
    obtain ⟨⟨a, b⟩, hp, rfl⟩ := hy
    have hz := List.of_mem_zip (hsub.subset hp)
    obtain ⟨x, hx, hxa⟩ := List.mem_map.mp hz.1
    exact ⟨x, hx, hxa.symm⟩
  · norm_num [vet_FWHM_series, pyRound2, pyRoundInt]
  · norm_num [pyRound2, pyRoundInt]
  · norm_num [pyRound2, pyRoundInt]

/-- Witness for C10 at a concrete input. -/
theorem vet_FWHM_series_rounds_first_app :
    ([(7 : ℚ)].length = [(1234 : ℚ) / 1000].length) ∧
      ((∃ out, vet_FWHM_series [7] [1234 / 1000] = some out ∧
          ∀ y ∈ out.2, ∃ x ∈ [(1234 : ℚ) / 1000], y = pyRound2 x) ∧
        vet_FWHM_series [1, 2] [849 / 10000, 9996 / 1000] = some ([], []) ∧
        pyRound2 (849 / 10000) = 8 / 100 ∧ pyRound2 (9996 / 1000) = 10) :=
  ⟨rfl, vet_FWHM_series_rounds_first [7] [1234 / 1000] rfl⟩

/-- Counterexample for C2 as stated: the routine the claim's sources offer
as the 50-threshold vetting path, `FWHM_all`, keeps the value `60`, which is
at or above 50.  (The only high-value cutoff in the module is the strict
`< 10` pass of `vet_FWHM_series`; the `>= 50` vetting described in the
docstring and history comments does not exist in the current code.) -/
theorem FWHM_all_keeps_sixty :
    FWHM_all [["60.0"]] = Except.ok [60] ∧ (50 : ℚ) ≤ 60 := by
  constructor
  · have h1 : parseFloatRep "60.0" = some (600, 1, 0) := by decide
    have h3 : npTruthy (emptyIdx ["60.0"]) = Except.ok false := by decide
    norm_num [FWHM_all, h3, parseAll, parseFloat, h1, ratOfRep]
  · norm_num

/-- C2 (amended): the module applies a single high-value threshold, `10`:
the vetting routine `vet_FWHM_series` excludes from its output every value
at or above `10` (hence a fortiori every value at or above `50`), while
`FWHM_all` applies no high-value threshold at all - it keeps the value `60`. -/
theorem high_value_cutoff_is_ten (time raw : List ℚ)
    (h : time.length = raw.length) :
    (∃ out, vet_FWHM_series time raw = some out ∧ ∀ x ∈ out.2, x < 10) ∧
      FWHM_all [["60.0"]] = Except.ok [60] := by
  constructor
  · obtain ⟨out, hout⟩ := vet_isSome time raw h
    obtain ⟨kept, -, heq, hprop⟩ := vet_some_eq time raw out hout
    refine ⟨out, hout, ?_⟩
    intro x hx
    rw [heq] at hx
    simp only [List.mem_map] at hx
    obtain ⟨p, hp, rfl⟩ := hx
    exact (hprop p hp).2.2
  · have h1 : parseFloatRep "60.0" = some (600, 1, 0) := by decide
    have h3 : npTruthy (emptyIdx ["60.0"]) = Except.ok false := by decide
    norm_num [FWHM_all, h3, parseAll, parseFloat, h1, ratOfRep]

/-- Witness for the amended C2 at a concrete input. -/
theorem high_value_cutoff_is_ten_app :
    ([(1 : ℚ), 2].length = [(3 : ℚ), 11].length) ∧
      ((∃ out, vet_FWHM_series [1, 2] [3, 11] = some out ∧ ∀ x ∈ out.2, x < 10) ∧
        FWHM_all [["60.0"]] = Except.ok [60]) :=
  ⟨rfl, high_value_cutoff_is_ten [1, 2] [3, 11] rfl⟩

/-- C3: a raw `FWHM_ave` row whose strings fail float conversion (after the
removal of a first empty string) contributes the zero sentinel to the
returned per-row average array, and the vetting step removes every
zero-valued entry, so no such sentinel survives into vetted output. -/
theorem FWHM_ave_malformed_row_zero_vetted (raw : List (List String)) (i : ℕ)
    (hi : i < raw.length)
    (hbad : parseAll (removeFirstEmpty (raw.getD i [])) = none) :
    (FWHM_ave raw).getD i 1 = 0 ∧
      ∀ time out, vet_FWHM_series time (FWHM_ave raw) = some out →
        (0 : ℚ) ∉ out.2 := by
  constructor
  · have h1 := getD_map_lt (fun row => (npMeanOpt (rowVals row)).getD 0) raw i hi 1 []
    rw [FWHM_ave, h1]
    simp only [rowVals, hbad]
    norm_num [npMeanOpt]
  · intro time out hout h0
    obtain ⟨kept, -, heq, hprop⟩ := vet_some_eq time (FWHM_ave raw) out hout
    rw [heq] at h0
    simp only [List.mem_map] at h0
    obtain ⟨p, hp, hp0⟩ := h0
    exact (hprop p hp).1 hp0

/-- Witness for C3 at a concrete input. -/
theorem FWHM_ave_malformed_row_zero_vetted_app :
    (0 < [["abc"]].length) ∧
      (parseAll (removeFirstEmpty ([["abc"]].getD 0 [])) = none) ∧
      ((FWHM_ave [["abc"]]).getD 0 1 = 0 ∧
        ∀ time out, vet_FWHM_series time (FWHM_ave [["abc"]]) = some out →
          (0 : ℚ) ∉ out.2) :=
  ⟨by decide, by decide,
    FWHM_ave_malformed_row_zero_vetted [["abc"]] 0 (by decide) (by decide)⟩

/-- C9: `FWHM_ave` (without sigmas) returns one entry per raw row, with the
`nan` mean of a degenerate row sanitised to `0` by `np.nan_to_num`, while
the sigma array of the `sigmas=True` return is exactly the unsanitised
per-row standard deviations - in particular the entry of a `nan` row stays
`nan` (`none`). -/
theorem FWHM_ave_lengths_nan (raw : List (List String)) (i : ℕ)
    (hi : i < raw.length)
    (hnan : npMeanOpt (rowVals (raw.getD i [])) = none) :
    (FWHM_ave raw).length = raw.length ∧
      (FWHM_ave raw).getD i 1 = 0 ∧
      (FWHM_ave_sigmas raw).2 = raw.map (fun row => npStdOpt (rowVals row)) ∧
      (FWHM_ave_sigmas raw).2.getD i (some 0) = none := by
  refine ⟨by simp [FWHM_ave], ?_, rfl, ?_⟩
  · have h1 := getD_map_lt (fun row => (npMeanOpt (rowVals row)).getD 0) raw i hi 1 []
    rw [FWHM_ave, h1, hnan]
    rfl
  · have h2 := getD_map_lt (fun row => npStdOpt (rowVals row)) raw i hi (some 0) []
    have he : (rowVals (raw.getD i [])).isEmpty = true := by
      by_contra hc
      simp only [npMeanOpt] at hnan
      rw [if_neg hc] at hnan
      exact Option.some_ne_none _ hnan
    have h3 : npStdOpt (rowVals (raw.getD i [])) = none := by
      simp only [npStdOpt]
      rw [if_pos he]
    simp only [FWHM_ave_sigmas]
    rw [h2]
    exact h3

/-- Witness for C9 at a concrete input. -/
theorem FWHM_ave_lengths_nan_app :
    (0 < [[""], ["2.0"]].length) ∧
      (npMeanOpt (rowVals ([[""], ["2.0"]].getD 0 [])) = none) ∧
      ((FWHM_ave [[""], ["2.0"]]).length = [[""], ["2.0"]].length ∧
        (FWHM_ave [[""], ["2.0"]]).getD 0 1 = 0 ∧
        (FWHM_ave_sigmas [[""], ["2.0"]]).2 =
          [[""], ["2.0"]].map (fun row => npStdOpt (rowVals row)) ∧
        (FWHM_ave_sigmas [[""], ["2.0"]]).2.getD 0 (some 0) = none) :=
  ⟨by decide, by decide,
    FWHM_ave_lengths_nan [[""], ["2.0"]] 0 (by decide) (by decide)⟩

/-! ## Claims C7 and C5 -/

/-- C7 (code-bug exhibit): the `if inds:` guard of `FWHM_all` applies numpy
truthiness to the index array of empty strings.  With two empty strings the
comparison raises (ambiguous truth value); with a single empty string at
index 0 the guard is falsy, the replacement is skipped, and `float('')`
raises; only a single empty string at a nonzero index takes the intended
replace-with-`'0.0'` path (the `0.0` sentinel is then filtered out). -/
theorem FWHM_all_empty_string_guard :
    FWHM_all [["", ""]] = Except.error "ValueError: ambiguous truth value" ∧
      FWHM_all [[""]] = Except.error "ValueError: invalid float literal" ∧
      FWHM_all [["1.0", ""]] = Except.ok [1] := by
  refine ⟨by decide, by decide, ?_⟩
  have h1 : parseFloatRep "1.0" = some (10, 1, 0) := by decide
  have h2 : parseFloatRep "0.0" = some (0, 1, 0) := by decide
  have h3 : npTruthy (emptyIdx ["1.0", ""]) = Except.ok true := by decide
  have h5 : (if ("1.0" : String) = "" then "0.0" else "1.0") = "1.0" := by decide
  have h6 : (if ("" : String) = "" then "0.0" else "") = "0.0" := by decide
  norm_num [FWHM_all, h3, h5, h6, parseAll, parseFloat, h1, h2, ratOfRep]

/-- C5 (code-bug exhibit): line 49 of `makegaussian.py` computes
`m0 - 2.5*np.log(N/wmean)` with the *natural* logarithm, which differs from
the stated standard conversion `m0 - 2.5*log10(N/wmean)` (also the formula
in the script's own closing comment): at `m0 = 0`, `wmean = 1`, `N = 10`
the code yields `-2.5*ln 10` while the stated conversion yields `-2.5`. -/
theorem makeGaussian_uses_natural_log :
    img_mag 0 1 10 ≠ img_mag_spec 0 1 10 := by
  have h10 : (1 : ℝ) < Real.log 10 := by
    have he : Real.exp 1 < 10 := lt_trans Real.exp_one_lt_d9 (by norm_num)
    calc (1 : ℝ) = Real.log (Real.exp 1) := (Real.log_exp 1).symm
      _ < Real.log 10 := Real.log_lt_log (Real.exp_pos 1) he
  simp only [img_mag, img_mag_spec]
  intro heq
  have h2 : Real.log (10 / 1) = Real.logb 10 (10 / 1) := by
    have h3 : (2.5 : ℝ) * Real.log (10 / 1) = 2.5 * Real.logb 10 (10 / 1) := by
      linarith
    exact mul_left_cancel₀ (by norm_num : (2.5 : ℝ) ≠ 0) h3
  rw [show ((10 : ℝ) / 1) = 10 by norm_num] at h2
  rw [Real.logb_self_eq_one (by norm_num : (1 : ℝ) < 10)] at h2
  exact (ne_of_gt h10) h2

/-! ## Helper lemmas for `np.argmax` and the KDE grid -/

lemma argmax_fold_ge (l : List ℝ) (js : List ℕ) :
    ∀ (b j : ℕ), (j ∈ js ∨ j = b) →
      l.getD j 0 ≤
        l.getD (js.foldl (fun b j => if l.getD b 0 < l.getD j 0 then j else b) b) 0 := by
  induction js with
  | nil =>
    intro b j hj
    rcases hj with h | h
    · simp at h
    · subst h; exact le_refl _
  | cons a t ih =>
    intro b j hj
    have hstep1 : l.getD b 0 ≤ l.getD (if l.getD b 0 < l.getD a 0 then a else b) 0 := by
      split_ifs with hc
      · exact le_of_lt hc
      · exact le_refl _
    have hstep2 : l.getD a 0 ≤ l.getD (if l.getD b 0 < l.getD a 0 then a else b) 0 := by
      split_ifs with hc
      · exact le_refl _
      · exact le_of_not_lt hc
    simp only [List.foldl_cons]
    rcases hj with h | h
    · rcases List.mem_cons.mp h with h1 | h1
      · subst h1
        exact le_trans hstep2 (ih _ _ (Or.inr rfl))
      · exact ih _ _ (Or.inl h1)
    · subst h
      exact le_trans hstep1 (ih _ _ (Or.inr rfl))

lemma argmax_fold_mem (l : List ℝ) (js : List ℕ) :
    ∀ b : ℕ,
      js.foldl (fun b j => if l.getD b 0 < l.getD j 0 then j else b) b = b ∨
        js.foldl (fun b j => if l.getD b 0 < l.getD j 0 then j else b) b ∈ js := by
  induction js with
  | nil => exact fun b => Or.inl rfl
  | cons a t ih =>
    intro b
    simp only [List.foldl_cons]
    rcases ih (if l.getD b 0 < l.getD a 0 then a else b) with h | h
    · rw [h]
      split_ifs with hc
      · exact Or.inr (List.mem_cons_self a t)
      · exact Or.inl rfl
    · exact Or.inr (List.mem_cons_of_mem a h)

lemma argmaxIdx_lt (l : List ℝ) (hl : l ≠ []) : argmaxIdx l < l.length := by
  have h0 : 0 < l.length := List.length_pos.mpr hl
  simp only [argmaxIdx]
  rcases argmax_fold_mem l (List.range l.length) 0 with h | h
  · rw [h]; exact h0
  · exact List.mem_range.mp h

lemma argmaxIdx_ge (l : List ℝ) (j : ℕ) (hj : j < l.length) :
    l.getD j 0 ≤ l.getD (argmaxIdx l) 0 := by
  simp only [argmaxIdx]
  exact argmax_fold_ge l (List.range l.length) 0 j (Or.inl (List.mem_range.mpr hj))

/-! ## Claim C6 -/

set_option maxRecDepth 4000 in
/-- C6: for every non-empty sample, `FWHM_stats` returns the five values
`[mean, median, mode, standard deviation, 3-sigma-clipped mean]` in that
order, where the mode is a point of the 1000-point uniform grid
`np.linspace(0, 30, 1000)` at which the Gaussian KDE of the sample attains
its maximum over the grid. -/
theorem FWHM_stats_shape (fwhm : List ℝ) (_hne : fwhm ≠ []) :
    FWHM_stats fwhm = [npMean fwhm, npMedian fwhm,
        kdeGrid.getD (argmaxIdx (kdeGrid.map (gaussian_kde fwhm))) 0,
        npStd fwhm, npMean (sigmaclip 3 3 fwhm)] ∧
      kdeGrid.length = 1000 ∧
      (∀ i, i < 1000 → kdeGrid.getD i 0 = 30 * (i : ℝ) / 999) ∧
      kdeGrid.getD (argmaxIdx (kdeGrid.map (gaussian_kde fwhm))) 0 ∈ kdeGrid ∧
      ∀ g ∈ kdeGrid,
        gaussian_kde fwhm g ≤
          gaussian_kde fwhm
            (kdeGrid.getD (argmaxIdx (kdeGrid.map (gaussian_kde fwhm))) 0) := by
  have hglen : kdeGrid.length = 1000 := by
    rw [kdeGrid, List.length_map, List.length_range]
  have hpdflen : (kdeGrid.map (gaussian_kde fwhm)).length = 1000 := by
    simp [hglen]
  have hfr : kdeGrid.map (gaussian_kde fwhm) ≠ [] := by
    intro hc
    rw [hc] at hpdflen
    simp at hpdflen
  have hal : argmaxIdx (kdeGrid.map (gaussian_kde fwhm)) <
      (kdeGrid.map (gaussian_kde fwhm)).length := argmaxIdx_lt _ hfr
  have halg : argmaxIdx (kdeGrid.map (gaussian_kde fwhm)) < kdeGrid.length := by
    rw [← List.length_map kdeGrid (gaussian_kde fwhm)]
    exact hal
  have hpdf : ∀ k, k < kdeGrid.length →
      (kdeGrid.map (gaussian_kde fwhm)).getD k 0 =
        gaussian_kde fwhm (kdeGrid.getD k 0) :=
    fun k hk => getD_map_lt (gaussian_kde fwhm) kdeGrid k hk 0 0
  refine ⟨rfl, hglen, ?_, ?_, ?_⟩
  · intro i hi
    have h1 := getD_map_lt (fun i : ℕ => 30 * (i : ℝ) / 999) (List.range 1000) i
      (by simpa using hi) 0 0
    have h2 : (List.range 1000).getD i 0 = i := by
      rw [List.getD_eq_getElem?_getD, List.getElem?_range hi]
      rfl
    rw [kdeGrid, h1, h2]
  · have hx : kdeGrid.getD (argmaxIdx (kdeGrid.map (gaussian_kde fwhm))) 0 =
        kdeGrid.get ⟨argmaxIdx (kdeGrid.map (gaussian_kde fwhm)), halg⟩ := by
      rw [List.getD_eq_getElem?_getD, List.getElem?_eq_getElem halg,
        Option.getD_some, List.get_eq_getElem]
    rw [hx]
    exact List.get_mem kdeGrid _ halg
  · intro g hg
    obtain ⟨⟨k, hk⟩, hkg⟩ := List.mem_iff_get.mp hg
    have hgetD : kdeGrid.getD k 0 = g := by
      rw [List.getD_eq_getElem?_getD, List.getElem?_eq_getElem hk]
      simpa using hkg
    have hle := argmaxIdx_ge (kdeGrid.map (gaussian_kde fwhm)) k (by rwa [hpdflen, ← hglen])
    rw [hpdf k hk, hpdf _ halg, hgetD] at hle
    exact hle

/-- Witness for C6 at a concrete sample. -/
theorem FWHM_stats_shape_app :
    ([(2 : ℝ), 3] ≠ []) ∧
      (FWHM_stats [2, 3] = [npMean [2, 3], npMedian [2, 3],
          kdeGrid.getD (argmaxIdx (kdeGrid.map (gaussian_kde [2, 3]))) 0,
          npStd [2, 3], npMean (sigmaclip 3 3 [2, 3])] ∧
        kdeGrid.length = 1000 ∧
        (∀ i, i < 1000 → kdeGrid.getD i 0 = 30 * (i : ℝ) / 999) ∧
        kdeGrid.getD (argmaxIdx (kdeGrid.map (gaussian_kde [2, 3]))) 0 ∈ kdeGrid ∧
        ∀ g ∈ kdeGrid,
          gaussian_kde [2, 3] g ≤
            gaussian_kde [2, 3]
              (kdeGrid.getD (argmaxIdx (kdeGrid.map (gaussian_kde [2, 3]))) 0)) :=
  ⟨List.cons_ne_nil 2 [3], FWHM_stats_shape [2, 3] (List.cons_ne_nil 2 [3])⟩
